import Mathlib

/-!
# Membership & Invitation State Engine — verification development

Shallow embedding of the membership/invite-link engine of the `kan`
repository: the member router (`packages/api/src/routers/member.ts`) and the
member repository (`member.repo`, together with the
`workspace_invite_link` schema). Machine time is modelled as a `Nat`
(milliseconds); the relational store is a record of lists of rows; external
effects (billing seat updates, magic-link dispatch) are driven by an
environment record and also recorded in an effect trace so ordering and
occurrence claims can be stated.
-/

namespace Kan

/-- Milliseconds in one day; `expiresAt.setDate(getDate() + n)` is modelled as
adding `n` whole days. -/
def dayMs : Nat := 86400000

/-- A row of the `workspace` table (only the fields the engine reads). -/
structure Workspace where
  id : Nat
  publicId : String
  name : String
  slug : String
deriving DecidableEq, Repr

/-- A row of the `user` table (only the fields the engine reads). -/
structure User where
  id : String
  email : String
  name : Option String
deriving DecidableEq, Repr

/-- A row of the `workspace_member` table. -/
structure Member where
  id : Nat
  publicId : String
  workspaceId : Nat
  email : String
  userId : Option String
  createdBy : String
  role : String
  status : String
  deletedAt : Option Nat
  deletedBy : Option String
deriving DecidableEq, Repr

/-- A row of the `workspace_invite_link` table. -/
structure InviteLink where
  id : Nat
  workspaceId : Nat
  inviteCode : String
  role : String
  isUsed : Bool
  createdBy : String
  createdAt : Nat
  expiresAt : Nat
  usedAt : Option Nat
  usedBy : Option String
deriving DecidableEq, Repr

/-- A billing subscription as read by the engine.
Modelled from the spec: `SubscriptionView` — subscription.repo and the shared
billing helpers are not in the sources; each subscription carries a plan
tier, a status, an optional external (Stripe) handle and an
unlimited-seats flag. -/
structure Subscription where
  referenceId : String
  plan : String
  status : String
  stripeSubscriptionId : Option String
  unlimitedSeats : Bool
deriving DecidableEq, Repr

/-- The relational store: the rows of each table plus the serial-id counters
(`BIGSERIAL` primary keys). -/
structure DB where
  workspaces : List Workspace
  users : List User
  members : List Member
  inviteLinks : List InviteLink
  subscriptions : List Subscription
  nextMemberId : Nat
  nextInviteLinkId : Nat
deriving DecidableEq, Repr

/-- Serial ids are ahead of every stored row (the store's `BIGSERIAL`
invariant), as a decidable check. -/
def DB.wfb (db : DB) : Bool :=
  db.members.all (fun m => m.id < db.nextMemberId) &&
    db.inviteLinks.all (fun l => l.id < db.nextInviteLinkId)

/-- tRPC error codes used by the member router. -/
inductive ErrCode where
  | UNAUTHORIZED
  | NOT_FOUND
  | FORBIDDEN
  | CONFLICT
  | BAD_REQUEST
  | INTERNAL_SERVER_ERROR
deriving DecidableEq, Repr

/-- A thrown `TRPCError`: machine-checkable code plus human-readable message. -/
structure TRPCError where
  code : ErrCode
  message : String
deriving DecidableEq, Repr

/-- External and store side effects, recorded in order of occurrence.
`seatUpdate sid d` is a `updateSubscriptionSeats(sid, d)` call to the billing
provider. -/
inductive Effect where
  | seatUpdate (stripeSubscriptionId : String) (delta : Int)
  | memberInsert (memberId : Nat)
  | memberSoftDeleted (memberId : Nat)
  | inviteLinkInsert (inviteLinkId : Nat)
  | magicLink (email : String)
deriving DecidableEq, Repr

/-- Result of one router operation: the tRPC response or thrown error, the
store afterwards, and the trace of effects that occurred. -/
structure OpResult (α : Type) where
  res : Except TRPCError α
  db : DB
  trace : List Effect

namespace memberRepo

/-- Input of `memberRepo.create` (member.repo `create`). -/
structure MemberInput where
  userId : Option String
  email : String
  workspaceId : Nat
  createdBy : String
  role : String
  status : String

/-- member.repo `create`: inserts a `workspaceMembers` row with a generated
public id, returning the inserted row and the new store. -/
def create (db : DB) (publicId : String) (i : MemberInput) : Member × DB :=
  let m : Member :=
    { id := db.nextMemberId, publicId := publicId, workspaceId := i.workspaceId,
      email := i.email, userId := i.userId, createdBy := i.createdBy,
      role := i.role, status := i.status, deletedAt := none, deletedBy := none }
  (m, { db with members := db.members ++ [m], nextMemberId := db.nextMemberId + 1 })

/-- member.repo `getByPublicId`: `findFirst` on `publicId` — note: no
`deletedAt` filter. -/
def getByPublicId (db : DB) (publicId : String) : Option Member :=
  db.members.find? (fun m => m.publicId == publicId)

/-- member.repo `softDelete`: conditional update — set `deletedAt`/`deletedBy`
where `id = memberId AND deletedAt IS NULL` — returning the updated row if
any (`undefined`, i.e. `none`, when zero rows matched). -/
def softDelete (db : DB) (memberId : Nat) (deletedAt : Nat) (deletedBy : String) :
    Option Member × DB :=
  let hit (m : Member) : Bool := m.id == memberId && m.deletedAt == none
  let upd (m : Member) : Member :=
    { m with deletedAt := some deletedAt, deletedBy := some deletedBy }
  ((db.members.filter hit).head?.map upd,
   { db with members := db.members.map (fun m => if hit m then upd m else m) })

/-- Input of `memberRepo.createInviteLink`. -/
structure InviteLinkInput where
  workspaceId : Nat
  inviteCode : String
  createdBy : String
  role : String
  expiresAt : Nat

/-- member.repo `createInviteLink`: inserts a `workspaceInviteLinks` row
(`isUsed` defaults to false, `createdAt` to now), returning the inserted row
and the new store. -/
def createInviteLink (db : DB) (i : InviteLinkInput) (now : Nat) : InviteLink × DB :=
  let l : InviteLink :=
    { id := db.nextInviteLinkId, workspaceId := i.workspaceId,
      inviteCode := i.inviteCode, role := i.role, isUsed := false,
      createdBy := i.createdBy, createdAt := now, expiresAt := i.expiresAt,
      usedAt := none, usedBy := none }
  (l, { db with
          inviteLinks := db.inviteLinks ++ [l]
          nextInviteLinkId := db.nextInviteLinkId + 1 })

/-- member.repo `getInviteLinkByCode`: `findFirst` on the `inviteCode`
column. -/
def getInviteLinkByCode (db : DB) (inviteCode : String) : Option InviteLink :=
  db.inviteLinks.find? (fun l => l.inviteCode == inviteCode)

/-- member.repo `markInviteLinkAsUsed`: update — set `isUsed`, `usedAt`,
`usedBy` where `id = inviteLinkId` (no condition on `isUsed`, no
`.returning`) — the driver reports the number of rows affected. -/
def markInviteLinkAsUsed (db : DB) (inviteLinkId : Nat) (userId : Option String)
    (now : Nat) : DB × Nat :=
  let hit (l : InviteLink) : Bool := l.id == inviteLinkId
  let upd (l : InviteLink) : InviteLink :=
    { l with isUsed := true, usedAt := some now, usedBy := userId }
  ({ db with inviteLinks := db.inviteLinks.map (fun l => if hit l then upd l else l) },
   (db.inviteLinks.filter hit).length)

/-- member.repo `deleteInviteLink`: hard delete where `id = inviteLinkId`;
the driver reports the number of rows affected. -/
def deleteInviteLink (db : DB) (inviteLinkId : Nat) : DB × Nat :=
  ({ db with inviteLinks := db.inviteLinks.filter (fun l => !(l.id == inviteLinkId)) },
   (db.inviteLinks.filter (fun l => l.id == inviteLinkId)).length)

/-- member.repo `getInviteLinksByWorkspaceId`: all links of the workspace,
filtered to `isUsed = false` unless `includeExpired` asks for all. -/
def getInviteLinksByWorkspaceId (db : DB) (workspaceId : Nat)
    (includeExpired : Bool) : List InviteLink :=
  if includeExpired then
    db.inviteLinks.filter (fun l => l.workspaceId == workspaceId)
  else
    db.inviteLinks.filter (fun l => l.workspaceId == workspaceId && l.isUsed == false)

end memberRepo

namespace workspaceRepo

/-- Modelled from the spec: workspace.repo `getByPublicId` is not in the
sources; lookup of a workspace row by its public id. -/
def getByPublicId (db : DB) (publicId : String) : Option Workspace :=
  db.workspaces.find? (fun w => w.publicId == publicId)

/-- Modelled from the spec: workspace.repo `getById` is not in the sources;
lookup of a workspace row by its internal id. -/
def getById (db : DB) (id : Nat) : Option Workspace :=
  db.workspaces.find? (fun w => w.id == id)

/-- Modelled from the spec: workspace.repo `getByPublicIdWithMembers` is not
in the sources; the workspace together with its non-deleted member rows (the
pre-check tests "a non-deleted Member of the workspace"). -/
def getByPublicIdWithMembers (db : DB) (publicId : String) :
    Option (Workspace × List Member) :=
  (getByPublicId db publicId).map (fun w =>
    (w, db.members.filter (fun m => m.workspaceId == w.id && m.deletedAt == none)))

/-- Modelled from the spec: workspace.repo `isUserInWorkspace` is not in the
sources; whether the user has a non-deleted membership of the workspace. -/
def isUserInWorkspace (db : DB) (userId : String) (workspaceId : Nat) : Bool :=
  db.members.any (fun m =>
    m.workspaceId == workspaceId && m.userId == some userId && m.deletedAt == none)

end workspaceRepo

namespace userRepo

/-- Modelled from the spec: user.repo `getByEmail` is not in the sources;
account lookup by email (Identity Lookup). -/
def getByEmail (db : DB) (email : String) : Option User :=
  db.users.find? (fun u => u.email == email)

/-- Modelled from the spec: user.repo `getById` is not in the sources;
account lookup by id (Identity Lookup). -/
def getById (db : DB) (id : String) : Option User :=
  db.users.find? (fun u => u.id == id)

end userRepo

namespace subscriptionRepo

/-- Modelled from the spec: subscription.repo `getByReferenceId` is not in
the sources; reads the workspace's billing subscriptions (keyed by the
workspace public id). -/
def getByReferenceId (db : DB) (referenceId : String) : List Subscription :=
  db.subscriptions.filter (fun s => s.referenceId == referenceId)

end subscriptionRepo

/-- Modelled from the spec: shared util `getSubscriptionByPlan` is not in the
sources; the active subscription of the given plan tier, if any. -/
def getSubscriptionByPlan (subs : List Subscription) (plan : String) :
    Option Subscription :=
  subs.find? (fun s => s.status == "active" && s.plan == plan)

/-- Modelled from the spec: shared util `hasUnlimitedSeats` is not in the
sources; whether any subscription carries the unlimited-seats flag. -/
def hasUnlimitedSeats (subs : List Subscription) : Bool :=
  subs.any (fun s => s.unlimitedSeats)

/-- Modelled from the spec: `assertUserInWorkspace` (api utils/auth) is not
in the sources; whether the user holds the given role in the workspace via a
non-deleted membership — the router fails `FORBIDDEN` otherwise. -/
def assertUserInWorkspace (db : DB) (userId : String) (workspaceId : Nat)
    (role : String) : Bool :=
  db.members.any (fun m =>
    m.workspaceId == workspaceId && m.userId == some userId &&
      m.role == role && m.deletedAt == none)

/-- The ambient environment of one request: deployment flags, the clock, the
outcomes of the external billing and messaging calls, and the random
identifiers that will be generated. -/
structure Env where
  kanEnv : String
  baseUrl : Option String
  now : Nat
  seatUpdateOk : Bool
  magicLinkStatus : Bool
  newPublicId : String
  newInviteCode : String
deriving DecidableEq, Repr

namespace memberRouter

/-- Output of `invite`: the created member's identifiers. -/
structure MemberIds where
  id : Nat
  publicId : String
deriving DecidableEq, Repr

/-- Output of `delete` and `deleteInviteLink`. -/
structure SuccessOut where
  success : Bool
deriving DecidableEq, Repr

/-- Output of `acceptInviteLink`. -/
structure AcceptOut where
  success : Bool
  workspacePublicId : Option String
  workspaceSlug : Option String
deriving DecidableEq, Repr

/-- Output of `generateInviteLink`. -/
structure GenOut where
  inviteLink : String
  inviteCode : String
  expiresAt : Nat
deriving DecidableEq, Repr

/-- The billing gate of `invite` (member.ts lines 67-106): in cloud mode,
requires an active team or pro subscription (`NOT_FOUND` otherwise) and, when
an active team subscription carries a Stripe handle and seats are not
unlimited, issues a seat increment that fails the whole call with
`INTERNAL_SERVER_ERROR`. Returns the effects emitted so far. -/
def inviteBillingGate (env : Env) (db : DB) (workspace : Workspace) :
    Except (TRPCError × List Effect) (List Effect) :=
  if env.kanEnv == "cloud" then
    let subs := subscriptionRepo.getByReferenceId db workspace.publicId
    let activeTeamSubscription := getSubscriptionByPlan subs "team"
    let activeProSubscription := getSubscriptionByPlan subs "pro"
    let unlimitedSeats := hasUnlimitedSeats subs
    if activeTeamSubscription.isNone && activeProSubscription.isNone then
      .error (⟨.NOT_FOUND, "Workspace with public ID " ++ workspace.publicId ++
        " does not have an active subscription"⟩, [])
    else
      match activeTeamSubscription with
      | some s =>
        match s.stripeSubscriptionId with
        | some sid =>
          if !unlimitedSeats then
            if env.seatUpdateOk then .ok [Effect.seatUpdate sid 1]
            else
              .error (⟨.INTERNAL_SERVER_ERROR,
                "Failed to update subscription for the new member."⟩,
                [Effect.seatUpdate sid 1])
          else .ok []
        | none => .ok []
      | none => .ok []
  else .ok []

/-- member.ts `invite` (lines 16-149): authenticate, resolve the workspace,
require admin, reject an email that is already a member, run the billing
gate, resolve an existing account, create the `invited` Member, dispatch the
magic link, and on dispatch failure soft-delete the just-created Member and
fail `INTERNAL_SERVER_ERROR`. -/
def invite (env : Env) (db : DB) (ctxUserId : Option String) (email : String)
    (workspacePublicId : String) : OpResult MemberIds :=
  match ctxUserId with
  | none => ⟨.error ⟨.UNAUTHORIZED, "User not authenticated"⟩, db, []⟩
  | some userId =>
    match workspaceRepo.getByPublicIdWithMembers db workspacePublicId with
    | none =>
      ⟨.error ⟨.NOT_FOUND, "Workspace with public ID " ++ workspacePublicId ++
        " not found"⟩, db, []⟩
    | some (workspace, wsMembers) =>
      if !assertUserInWorkspace db userId workspace.id "admin" then
        ⟨.error ⟨.FORBIDDEN, "User is not an admin of this workspace"⟩, db, []⟩
      else if wsMembers.any (fun m => m.email == email) then
        ⟨.error ⟨.CONFLICT, "User with email " ++ email ++
          " is already a member of this workspace"⟩, db, []⟩
      else
        match inviteBillingGate env db workspace with
        | .error (e, tr) => ⟨.error e, db, tr⟩
        | .ok tr =>
          let existingUser := userRepo.getByEmail db email
          let (inviteRow, db1) := memberRepo.create db env.newPublicId
            { userId := existingUser.map (fun u => u.id), email := email,
              workspaceId := workspace.id, createdBy := userId,
              role := "member", status := "invited" }
          let tr1 := tr ++ [Effect.memberInsert inviteRow.id, Effect.magicLink email]
          if !env.magicLinkStatus then
            let (_, db2) := memberRepo.softDelete db1 inviteRow.id env.now userId
            ⟨.error ⟨.INTERNAL_SERVER_ERROR,
              "Failed to send magic link invitation to user with email " ++
                email ++ "."⟩, db2,
              tr1 ++ [Effect.memberSoftDeleted inviteRow.id]⟩
          else
            ⟨.ok ⟨inviteRow.id, inviteRow.publicId⟩, db1, tr1⟩

/-- member.ts `delete` (lines 150-244): authenticate, resolve the workspace,
require admin, resolve the member by public id (`NOT_FOUND` if absent),
soft-delete (zero rows affected fails `INTERNAL_SERVER_ERROR`), then in
cloud mode issue a best-effort seat decrement whose failure is logged and
swallowed, and return success. -/
def memberDelete (env : Env) (db : DB) (ctxUserId : Option String)
    (workspacePublicId : String) (memberPublicId : String) : OpResult SuccessOut :=
  match ctxUserId with
  | none => ⟨.error ⟨.UNAUTHORIZED, "User not authenticated"⟩, db, []⟩
  | some userId =>
    match workspaceRepo.getByPublicId db workspacePublicId with
    | none =>
      ⟨.error ⟨.NOT_FOUND, "Workspace with public ID " ++ workspacePublicId ++
        " not found"⟩, db, []⟩
    | some workspace =>
      if !assertUserInWorkspace db userId workspace.id "admin" then
        ⟨.error ⟨.FORBIDDEN, "User is not an admin of this workspace"⟩, db, []⟩
      else
        match memberRepo.getByPublicId db memberPublicId with
        | none =>
          ⟨.error ⟨.NOT_FOUND, "Member with public ID " ++ memberPublicId ++
            " not found"⟩, db, []⟩
        | some member =>
          let (deletedMember, db1) :=
            memberRepo.softDelete db member.id env.now userId
          match deletedMember with
          | none =>
            ⟨.error ⟨.INTERNAL_SERVER_ERROR,
              "Failed to delete member with public ID " ++ memberPublicId⟩,
              db1, []⟩
          | some _ =>
            let tr0 := [Effect.memberSoftDeleted member.id]
            if env.kanEnv == "cloud" then
              let subs := subscriptionRepo.getByReferenceId db workspace.publicId
              let activeTeamSubscription := getSubscriptionByPlan subs "team"
              let unlimitedSeats := hasUnlimitedSeats subs
              match activeTeamSubscription with
              | some s =>
                match s.stripeSubscriptionId with
                | some sid =>
                  if !unlimitedSeats then
                    ⟨.ok ⟨true⟩, db1, tr0 ++ [Effect.seatUpdate sid (-1)]⟩
                  else ⟨.ok ⟨true⟩, db1, tr0⟩
                | none => ⟨.ok ⟨true⟩, db1, tr0⟩
              | none => ⟨.ok ⟨true⟩, db1, tr0⟩
            else ⟨.ok ⟨true⟩, db1, tr0⟩

/-- Raw (pre-validation) input of `generateInviteLink`: `role` and
`expiresIn` are optional and defaulted by the zod schema. -/
structure GenerateInput where
  workspacePublicId : String
  role : Option String
  expiresIn : Option Int
deriving DecidableEq, Repr

/-- The zod input schema of `generateInviteLink` (member.ts lines 257-263):
`workspacePublicId` min length 12, `role` ∈ enum \x7bmember, admin\x7d
defaulting to "member", `expiresIn` an integer in [1,30] defaulting to 7.
Validation failure rejects the request before the handler runs. -/
def zodParseGenerate (i : GenerateInput) : Except TRPCError (String × String × Nat) :=
  if i.workspacePublicId.length < 12 then
    .error ⟨.BAD_REQUEST, "Invalid input"⟩
  else
    match
      (match i.role with
       | none => some "member"
       | some r => if r == "member" || r == "admin" then some r else none)
    with
    | none => .error ⟨.BAD_REQUEST, "Invalid input"⟩
    | some role =>
      match i.expiresIn with
      | none => .ok (i.workspacePublicId, role, 7)
      | some n =>
        if 1 ≤ n ∧ n ≤ 30 then .ok (i.workspacePublicId, role, n.toNat)
        else .error ⟨.BAD_REQUEST, "Invalid input"⟩

/-- member.ts `generateInviteLink` (lines 246-348): after zod validation,
authenticate, resolve the workspace, require admin, in cloud mode require an
active team or pro subscription (`FORBIDDEN` otherwise, read-only — no seat
change), generate a code, persist an InviteLink expiring `expiresIn` days
from now, and return the redemption URL, code and expiration. -/
def generateInviteLink (env : Env) (db : DB) (ctxUserId : Option String)
    (input : GenerateInput) : OpResult GenOut :=
  match zodParseGenerate input with
  | .error e => ⟨.error e, db, []⟩
  | .ok (workspacePublicId, role, expiresIn) =>
    match ctxUserId with
    | none => ⟨.error ⟨.UNAUTHORIZED, "User not authenticated"⟩, db, []⟩
    | some userId =>
      match workspaceRepo.getByPublicIdWithMembers db workspacePublicId with
      | none =>
        ⟨.error ⟨.NOT_FOUND, "Workspace with public ID " ++ workspacePublicId ++
          " not found"⟩, db, []⟩
      | some (workspace, _wsMembers) =>
        if !assertUserInWorkspace db userId workspace.id "admin" then
          ⟨.error ⟨.FORBIDDEN, "User is not an admin of this workspace"⟩, db, []⟩
        else
          let subs := subscriptionRepo.getByReferenceId db workspace.publicId
          if env.kanEnv == "cloud" &&
              (getSubscriptionByPlan subs "team").isNone &&
              (getSubscriptionByPlan subs "pro").isNone then
            ⟨.error ⟨.FORBIDDEN, "Workspace with public ID " ++
              workspace.publicId ++ " does not have an active subscription"⟩,
              db, []⟩
          else
            let inviteCode := env.newInviteCode
            let expiresAt := env.now + expiresIn * dayMs
            let (inviteRow, db1) := memberRepo.createInviteLink db
              { workspaceId := workspace.id, inviteCode := inviteCode,
                createdBy := userId, role := role, expiresAt := expiresAt }
              env.now
            let baseUrl := env.baseUrl.getD "http://localhost:3000"
            ⟨.ok ⟨baseUrl ++ "/invite/" ++ inviteCode, inviteRow.inviteCode,
              inviteRow.expiresAt⟩, db1, [Effect.inviteLinkInsert inviteRow.id]⟩

/-- member.ts `acceptInviteLink` (lines 350-429): look the link up by code
and fail `BAD_REQUEST` when absent, already used, or past expiration (one
combined check, one message); then resolve the workspace, reject an existing
member with `CONFLICT`, resolve the user, create an `active` Member with the
link's role, mark the link used, and return success with the workspace's
public id and slug. -/
def acceptInviteLink (env : Env) (db : DB) (inviteCode : String)
    (userId : String) : OpResult AcceptOut :=
  match memberRepo.getInviteLinkByCode db inviteCode with
  | none => ⟨.error ⟨.BAD_REQUEST, "Invalid or expired invite link"⟩, db, []⟩
  | some invite =>
    if invite.isUsed || decide (env.now > invite.expiresAt) then
      ⟨.error ⟨.BAD_REQUEST, "Invalid or expired invite link"⟩, db, []⟩
    else
      match workspaceRepo.getById db invite.workspaceId with
      | none => ⟨.error ⟨.NOT_FOUND, "Workspace not found"⟩, db, []⟩
      | some workspace =>
        if workspaceRepo.isUserInWorkspace db userId invite.workspaceId then
          ⟨.error ⟨.CONFLICT, "User is already a member of this workspace"⟩,
            db, []⟩
        else
          match userRepo.getById db userId with
          | none => ⟨.error ⟨.NOT_FOUND, "User not found"⟩, db, []⟩
          | some user =>
            let (memberRow, db1) := memberRepo.create db env.newPublicId
              { userId := some user.id, email := user.email,
                workspaceId := invite.workspaceId, createdBy := invite.createdBy,
                role := invite.role, status := "active" }
            let (db2, _) :=
              memberRepo.markInviteLinkAsUsed db1 invite.id (some userId) env.now
            ⟨.ok ⟨true, some workspace.publicId, some workspace.slug⟩, db2,
              [Effect.memberInsert memberRow.id]⟩

/-- member.ts `deleteInviteLink` (lines 554-603): authenticate, then resolve
the link with `getInviteLinkByCode(inviteLinkId.toString())` — a lookup on
the `inviteCode` column with the numeric id rendered as a string —
(`NOT_FOUND` when nothing matches), require admin of the found link's
workspace, hard-delete by id, and return success. -/
def deleteInviteLink (db : DB) (ctxUserId : Option String)
    (inviteLinkId : Nat) : OpResult SuccessOut :=
  match ctxUserId with
  | none => ⟨.error ⟨.UNAUTHORIZED, "User not authenticated"⟩, db, []⟩
  | some userId =>
    match memberRepo.getInviteLinkByCode db (toString inviteLinkId) with
    | none => ⟨.error ⟨.NOT_FOUND, "Invite link not found"⟩, db, []⟩
    | some inviteLink =>
      if !assertUserInWorkspace db userId inviteLink.workspaceId "admin" then
        ⟨.error ⟨.FORBIDDEN, "User is not an admin of this workspace"⟩, db, []⟩
      else
        let (db1, _) := memberRepo.deleteInviteLink db inviteLinkId
        ⟨.ok ⟨true⟩, db1, []⟩

end memberRouter

/-! ## Concrete fixtures -/

/-- A workspace row used by the concrete scenarios. -/
def ws1 : Workspace :=
  { id := 1, publicId := "workspaceaaaa", name := "Acme", slug := "acme" }

/-- The admin's user account. -/
def adminUser : User :=
  { id := "adminuser", email := "admin@example.com", name := some "Ada" }

/-- A second user account (a redeemer). -/
def bobUser : User :=
  { id := "bobuseruuid", email := "bob@example.com", name := some "Bob" }

/-- The admin's membership of `ws1`. -/
def adminMember : Member :=
  { id := 1, publicId := "memberadmin1", workspaceId := 1,
    email := "admin@example.com", userId := some "adminuser",
    createdBy := "adminuser", role := "admin", status := "active",
    deletedAt := none, deletedBy := none }

/-- An already soft-deleted membership of `ws1`. -/
def deletedBobMember : Member :=
  { id := 2, publicId := "memberbobbbb", workspaceId := 1,
    email := "bob@example.com", userId := some "bobuseruuid",
    createdBy := "adminuser", role := "member", status := "active",
    deletedAt := some 500, deletedBy := some "adminuser" }

/-- An unused, unexpired invite link of `ws1` (id 1). -/
def freshLink : InviteLink :=
  { id := 1, workspaceId := 1, inviteCode := "abcdefghijkl", role := "member",
    isUsed := false, createdBy := "adminuser", createdAt := 0,
    expiresAt := 1000000, usedAt := none, usedBy := none }

/-- An already used invite link of `ws1` (id 2). -/
def usedLink : InviteLink :=
  { id := 2, workspaceId := 1, inviteCode := "usedusedused", role := "member",
    isUsed := true, createdBy := "adminuser", createdAt := 0,
    expiresAt := 1000000, usedAt := some 10, usedBy := some "firstuseruid" }

/-- Store fixture: `ws1` with its admin, both users, both links, no
subscriptions. -/
def dbBase : DB :=
  { workspaces := [ws1], users := [adminUser, bobUser],
    members := [adminMember], inviteLinks := [freshLink, usedLink],
    subscriptions := [], nextMemberId := 10, nextInviteLinkId := 10 }

/-- Store fixture for the removal scenarios: `dbBase` plus the already
soft-deleted membership. -/
def dbDeleted : DB :=
  { dbBase with members := [adminMember, deletedBobMember] }

/-- Self-hosted environment fixture (billing gate off). -/
def envSelf : Env :=
  { kanEnv := "selfhost", baseUrl := some "https://kan.example",
    now := 1000, seatUpdateOk := true, magicLinkStatus := true,
    newPublicId := "membernewpub", newInviteCode := "newcodeneww1" }

instance {ε α : Type} [DecidableEq ε] [DecidableEq α] : DecidableEq (Except ε α)
  | .error e, .error f =>
    if h : e = f then .isTrue (by rw [h])
    else .isFalse (by intro c; injection c; contradiction)
  | .error _, .ok _ => .isFalse (by intro c; exact Except.noConfusion c)
  | .ok _, .error _ => .isFalse (by intro c; exact Except.noConfusion c)
  | .ok a, .ok b =>
    if h : a = b then .isTrue (by rw [h])
    else .isFalse (by intro c; injection c; contradiction)

/-- The error code of a router result, `none` on success. -/
def resCode {α : Type} (r : Except TRPCError α) : Option ErrCode :=
  match r with
  | .error e => some e.code
  | .ok _ => none

/-! ## Theorems -/

/-- C1: `DeleteInviteLink` called by an admin of the link's workspace with
the stored link's numeric id does NOT delete the row — the handler resolves
the link with `getInviteLinkByCode(inviteLinkId.toString())`, a lookup on
the `inviteCode` column, which cannot match the generated code — so the call
fails `NOT_FOUND` and the row survives, although the link with that id
exists and the caller is an admin of its workspace. -/
theorem deleteInviteLink_by_id_fails_notFound :
    dbBase.inviteLinks.any (fun l => l.id == 1) = true ∧
    assertUserInWorkspace dbBase "adminuser" 1 "admin" = true ∧
    (memberRouter.deleteInviteLink dbBase (some "adminuser") 1).res =
      .error ⟨.NOT_FOUND, "Invite link not found"⟩ ∧
    (memberRouter.deleteInviteLink dbBase (some "adminuser") 1).db = dbBase := by
  decide

/-- C2 counterexample: on a member row that is already soft-deleted, a
second `RemoveMember` by a workspace admin does not fail `NOT_FOUND` as the
claim states — the member lookup has no deleted filter, so the row is found,
the conditional soft-delete affects zero rows, and the handler fails
`INTERNAL_SERVER_ERROR` (the row left unchanged). -/
theorem removeMember_already_deleted_not_notFound :
    memberRepo.getByPublicId dbDeleted "memberbobbbb" = some deletedBobMember ∧
    deletedBobMember.deletedAt = some 500 ∧
    resCode (memberRouter.memberDelete envSelf dbDeleted (some "adminuser")
        "workspaceaaaa" "memberbobbbb").res = some ErrCode.INTERNAL_SERVER_ERROR ∧
    resCode (memberRouter.memberDelete envSelf dbDeleted (some "adminuser")
        "workspaceaaaa" "memberbobbbb").res ≠ some ErrCode.NOT_FOUND ∧
    (memberRouter.memberDelete envSelf dbDeleted (some "adminuser")
        "workspaceaaaa" "memberbobbbb").db = dbDeleted := by
  decide

/-- C2 (amended): for every member row that is already soft-deleted, a
subsequent `RemoveMember` by a workspace admin for that member's public id
fails with `INTERNAL_SERVER_ERROR` (never reports success), and the store is
left unchanged. -/
theorem removeMember_already_deleted_internal (env : Env) (db : DB)
    (uid wpid mpid : String) (w : Workspace) (m : Member) (t : Nat)
    (hw : workspaceRepo.getByPublicId db wpid = some w)
    (hadm : assertUserInWorkspace db uid w.id "admin" = true)
    (hm : memberRepo.getByPublicId db mpid = some m)
    (hdel : m.deletedAt = some t)
    (hid : ∀ x ∈ db.members, x.id = m.id → x.deletedAt ≠ none) :
    (memberRouter.memberDelete env db (some uid) wpid mpid).res =
      .error ⟨.INTERNAL_SERVER_ERROR,
        "Failed to delete member with public ID " ++ mpid⟩ ∧
    (memberRouter.memberDelete env db (some uid) wpid mpid).db = db := by
  have hfilter :
      db.members.filter (fun x => x.id == m.id && x.deletedAt == none) = [] := by
    apply List.filter_eq_nil_iff.mpr
    intro x hx
    simp only [Bool.and_eq_true, beq_iff_eq, not_and]
    intro hxid
    have hne := hid x hx hxid
    cases hd : x.deletedAt with
    | none => exact absurd hd hne
    | some v => simp
  have hpt : ∀ a ∈ db.members,
      (if a.id == m.id && a.deletedAt == none
       then { a with deletedAt := some env.now, deletedBy := some uid }
       else a) = (fun x => x) a := by
    intro a ha
    have hfalse : (a.id == m.id && a.deletedAt == none) = false := by
      by_cases hida : a.id = m.id
      · have hne := hid a ha hida
        cases hd : a.deletedAt with
        | none => exact absurd hd hne
        | some v => simp [hd]
      · simp [hida]
    simp [hfalse]
  have hmap : db.members.map (fun x =>
      if x.id == m.id && x.deletedAt == none
      then { x with deletedAt := some env.now, deletedBy := some uid }
      else x) = db.members := by
    rw [List.map_congr_left hpt]
    simp
  have hsd : memberRepo.softDelete db m.id env.now uid = (none, db) := by
    unfold memberRepo.softDelete
    simp only [hfilter, hmap, List.head?_nil, Option.map_none']
  unfold memberRouter.memberDelete
  rw [hw]
  simp only [hadm, Bool.not_true, Bool.false_eq_true, if_false, hm, hsd]
  exact ⟨trivial, trivial⟩

/-- C2 witness: the amended statement at the concrete already-deleted
member. -/
theorem removeMember_already_deleted_internal_witness :
    (memberRouter.memberDelete envSelf dbDeleted (some "adminuser")
        "workspaceaaaa" "memberbobbbb").res =
      .error ⟨.INTERNAL_SERVER_ERROR,
        "Failed to delete member with public ID memberbobbbb"⟩ ∧
    (memberRouter.memberDelete envSelf dbDeleted (some "adminuser")
        "workspaceaaaa" "memberbobbbb").db = dbDeleted :=
  removeMember_already_deleted_internal envSelf dbDeleted "adminuser"
    "workspaceaaaa" "memberbobbbb" ws1 deletedBobMember 500 (by decide)
    (by decide) (by decide) (by decide) (by decide)

/-- C3 counterexample: `markInviteLinkAsUsed` does not update "only rows not
yet used" — its update is keyed on the id alone. On a row whose `isUsed` is
already true (used by `firstuseruid` at 10), the call rewrites `usedAt` and
`usedBy` for the second caller. -/
theorem markInviteLinkAsUsed_updates_used_row :
    (dbBase.inviteLinks.find? (fun l => l.id == 2)) = some usedLink ∧
    usedLink.isUsed = true ∧
    ((memberRepo.markInviteLinkAsUsed dbBase 2 (some "seconduser1") 50).1.inviteLinks.find?
        (fun l => l.id == 2)) =
      some { usedLink with usedAt := some 50, usedBy := some "seconduser1" } ∧
    (memberRepo.markInviteLinkAsUsed dbBase 2 (some "seconduser1") 50).1 ≠ dbBase := by
  decide

/-- C3 (amended): `softDelete` is a conditional update — it touches only
rows whose `deletedAt` is still null, and reports the zero-rows-affected
outcome distinguishably (it returns no row exactly when no row with the
given id is still undeleted). `markInviteLinkAsUsed`, by contrast, is keyed
on the link id alone, with no not-yet-used condition — every row with the
given id is overwritten, used or not — though it too reports the
affected-row count. -/
theorem conditional_update_shapes :
    (∀ (db : DB) (i t : Nat) (b : String),
      ∀ x ∈ db.members, x.deletedAt ≠ none →
        x ∈ ((memberRepo.softDelete db i t b).2).members) ∧
    (∀ (db : DB) (i t : Nat) (b : String),
      ((memberRepo.softDelete db i t b).1 = none ↔
        ∀ x ∈ db.members, ¬(x.id = i ∧ x.deletedAt = none))) ∧
    (∀ (db : DB) (i : Nat) (u : Option String) (t : Nat),
      (memberRepo.markInviteLinkAsUsed db i u t).2 =
        (db.inviteLinks.filter (fun l => l.id == i)).length ∧
      ∀ x ∈ db.inviteLinks, x.id = i →
        { x with isUsed := true, usedAt := some t, usedBy := u } ∈
          (memberRepo.markInviteLinkAsUsed db i u t).1.inviteLinks) := by
  refine ⟨?_, ?_, ?_⟩
  · intro db i t b x hx hxdel
    unfold memberRepo.softDelete
    simp only
    apply List.mem_map.mpr
    refine ⟨x, hx, ?_⟩
    have hfalse : (x.id == i && x.deletedAt == none) = false := by
      cases hd : x.deletedAt with
      | none => exact absurd hd hxdel
      | some v => simp [hd]
    simp [hfalse]
  · intro db i t b
    unfold memberRepo.softDelete
    simp only [Option.map_eq_none', List.head?_eq_none_iff,
      List.filter_eq_nil_iff, Bool.and_eq_true, beq_iff_eq, not_and]
  · intro db i u t
    constructor
    · rfl
    · intro x hx hxi
      unfold memberRepo.markInviteLinkAsUsed
      simp only
      apply List.mem_map.mpr
      refine ⟨x, hx, ?_⟩
      simp [hxi]

/-- C3 witness: the amended statement at concrete rows — an already-deleted
member survives `softDelete` untouched, and `markInviteLinkAsUsed` rewrites
the already-used link. -/
theorem conditional_update_shapes_witness :
    deletedBobMember ∈ ((memberRepo.softDelete dbDeleted 2 900 "adminuser").2).members ∧
    { usedLink with isUsed := true, usedAt := some 77, usedBy := some "seconduser1" } ∈
      (memberRepo.markInviteLinkAsUsed dbBase 2 (some "seconduser1") 77).1.inviteLinks :=
  ⟨conditional_update_shapes.1 dbDeleted 2 900 "adminuser" deletedBobMember
      (by decide) (by decide),
   (conditional_update_shapes.2.2 dbBase 2 (some "seconduser1") 77).2 usedLink
      (by decide) (by decide)⟩

/-- C4: `RedeemInviteLink` fails `BAD_REQUEST` exactly when the looked-up
link is absent, already used, or past expiration (so a link passes the
validity check iff `isUsed` is false and now ≤ `expiresAt`), and every such
failure carries the one combined message, leaking no sub-condition. -/
theorem acceptInviteLink_badRequest_iff (env : Env) (db : DB)
    (code uid : String) :
    ((∃ msg, (memberRouter.acceptInviteLink env db code uid).res =
        .error ⟨.BAD_REQUEST, msg⟩) ↔
      (memberRepo.getInviteLinkByCode db code = none ∨
        ∃ l, memberRepo.getInviteLinkByCode db code = some l ∧
          (l.isUsed = true ∨ env.now > l.expiresAt))) ∧
    ∀ msg, (memberRouter.acceptInviteLink env db code uid).res =
        .error ⟨.BAD_REQUEST, msg⟩ → msg = "Invalid or expired invite link" := by
  unfold memberRouter.acceptInviteLink
  cases hlk : memberRepo.getInviteLinkByCode db code with
  | none => simp
  | some l =>
    cases hval : (l.isUsed || decide (env.now > l.expiresAt)) with
    | true =>
      have hcond : l.isUsed = true ∨ env.now > l.expiresAt := by
        rcases Bool.or_eq_true_iff.mp hval with h | h
        · exact Or.inl h
        · exact Or.inr (of_decide_eq_true h)
      simp only []
      rw [if_pos hval]
      constructor
      · constructor
        · intro _
          exact Or.inr ⟨l, rfl, hcond⟩
        · intro _
          exact ⟨"Invalid or expired invite link", rfl⟩
      · intro msg h
        injection h with h1
        injection h1 with hc hm
        exact hm.symm
    | false =>
      have hrhs : ¬((some l = (none : Option InviteLink)) ∨
          ∃ l', (some l = some l') ∧ (l'.isUsed = true ∨ env.now > l'.expiresAt)) := by
        rintro (h | ⟨l', hl', hcond⟩)
        · exact Option.noConfusion h
        · cases Option.some.inj hl'
          rcases hcond with h | h
          · simp [h] at hval
          · simp [h] at hval
      obtain ⟨hu, he⟩ : l.isUsed = false ∧ env.now ≤ l.expiresAt := by
        rcases Bool.or_eq_false_iff.mp hval with ⟨h1, h2⟩
        exact ⟨h1, Nat.le_of_not_lt (of_decide_eq_false h2)⟩
      simp only []
      rw [if_neg (by simp [hval])]
      cases hws : workspaceRepo.getById db l.workspaceId with
      | none => simp [hrhs, hu, he]
      | some w =>
        cases hmem : workspaceRepo.isUserInWorkspace db uid l.workspaceId with
        | true => simp [hrhs, hu, he]
        | false =>
          cases husr : userRepo.getById db uid with
          | none => simp [hrhs, hu, he]
          | some u => simp [hrhs, hu, he]

/-- C4 witness: a second redemption attempt with the already-used code fails
`BAD_REQUEST`. -/
theorem acceptInviteLink_badRequest_iff_witness :
    ∃ msg, (memberRouter.acceptInviteLink envSelf dbBase "usedusedused"
        "bobuseruuid").res = .error ⟨.BAD_REQUEST, msg⟩ :=
  (acceptInviteLink_badRequest_iff envSelf dbBase "usedusedused"
      "bobuseruuid").1.mpr (Or.inr ⟨usedLink, by decide, Or.inl (by decide)⟩)

/-- C5: a successful `RedeemInviteLink` on a valid unused unexpired link
creates a Member directly in `active` status with the link's role and the
redeeming user's account linked, marks the link used with `usedAt`/`usedBy`
recorded, and returns success with the workspace's public id and slug. -/
theorem acceptInviteLink_success_creates_active_member (env : Env) (db : DB)
    (code uid : String) (l : InviteLink) (w : Workspace) (user : User)
    (hlk : memberRepo.getInviteLinkByCode db code = some l)
    (hunused : l.isUsed = false)
    (hfresh : env.now ≤ l.expiresAt)
    (hws : workspaceRepo.getById db l.workspaceId = some w)
    (hnotmem : workspaceRepo.isUserInWorkspace db uid l.workspaceId = false)
    (husr : userRepo.getById db uid = some user) :
    (memberRouter.acceptInviteLink env db code uid).res =
      .ok ⟨true, some w.publicId, some w.slug⟩ ∧
    (∃ m, ((memberRouter.acceptInviteLink env db code uid).db).members.getLast? =
        some m ∧
      m.status = "active" ∧ m.role = l.role ∧ m.userId = some user.id ∧
      m.email = user.email ∧ m.workspaceId = l.workspaceId ∧ m.deletedAt = none) ∧
    (∀ x ∈ ((memberRouter.acceptInviteLink env db code uid).db).inviteLinks,
      x.id = l.id →
        x.isUsed = true ∧ x.usedAt = some env.now ∧ x.usedBy = some uid) := by
  unfold memberRouter.acceptInviteLink
  rw [hlk]
  simp only []
  rw [if_neg (by simp [hunused, Nat.not_lt.mpr hfresh])]
  rw [hws]
  simp only []
  rw [if_neg (by simp [hnotmem])]
  rw [husr]
  refine ⟨rfl, ⟨_, List.getLast?_concat _, rfl, rfl, rfl, rfl, rfl, rfl⟩, ?_⟩
  intro x hx hxid
  rcases List.mem_map.mp hx with ⟨a, ha, hax⟩
  by_cases hhit : (a.id == l.id) = true
  · rw [if_pos hhit] at hax
    cases hax
    exact ⟨rfl, rfl, rfl⟩
  · rw [if_neg hhit] at hax
    cases hax
    exact absurd (by simp [hxid]) hhit

/-- C5 witness: Bob redeems the fresh link of `ws1` and becomes an `active`
member with the link's role; the link shows used with his id recorded. -/
theorem acceptInviteLink_success_witness :
    (memberRouter.acceptInviteLink envSelf dbBase "abcdefghijkl"
        "bobuseruuid").res = .ok ⟨true, some ws1.publicId, some ws1.slug⟩ ∧
    (∃ m, ((memberRouter.acceptInviteLink envSelf dbBase "abcdefghijkl"
          "bobuseruuid").db).members.getLast? = some m ∧
      m.status = "active" ∧ m.role = freshLink.role ∧
      m.userId = some bobUser.id ∧ m.email = bobUser.email ∧
      m.workspaceId = freshLink.workspaceId ∧ m.deletedAt = none) ∧
    (∀ x ∈ ((memberRouter.acceptInviteLink envSelf dbBase "abcdefghijkl"
          "bobuseruuid").db).inviteLinks,
      x.id = freshLink.id →
        x.isUsed = true ∧ x.usedAt = some envSelf.now ∧
          x.usedBy = some "bobuseruuid") :=
  acceptInviteLink_success_creates_active_member envSelf dbBase "abcdefghijkl"
    "bobuseruuid" freshLink ws1 bobUser (by decide) (by decide) (by decide)
    (by decide) (by decide) (by decide)

/-- C6: in cloud (seat-limited) mode with an active team subscription that
carries a Stripe handle and no unlimited seats, `InviteByEmail` issues the
external seat increment as its first effect — before any Member insert — and
if that increment fails the whole invite fails `INTERNAL_SERVER_ERROR` with
the store unchanged (no Member row persists). -/
theorem invite_seat_increment_fail_closed (env : Env) (db : DB)
    (uid email wpid : String) (w : Workspace) (mems : List Member)
    (s : Subscription) (sid : String)
    (hcloud : env.kanEnv = "cloud")
    (hws : workspaceRepo.getByPublicIdWithMembers db wpid = some (w, mems))
    (hadm : assertUserInWorkspace db uid w.id "admin" = true)
    (hnm : mems.any (fun m => m.email == email) = false)
    (hteam : getSubscriptionByPlan
      (subscriptionRepo.getByReferenceId db w.publicId) "team" = some s)
    (hsid : s.stripeSubscriptionId = some sid)
    (hunlim : hasUnlimitedSeats
      (subscriptionRepo.getByReferenceId db w.publicId) = false) :
    (memberRouter.invite env db (some uid) email wpid).trace.head? =
      some (Effect.seatUpdate sid 1) ∧
    (env.seatUpdateOk = false →
      (memberRouter.invite env db (some uid) email wpid).res =
        .error ⟨.INTERNAL_SERVER_ERROR,
          "Failed to update subscription for the new member."⟩ ∧
      (memberRouter.invite env db (some uid) email wpid).db = db) := by
  have hgate : memberRouter.inviteBillingGate env db w =
      (if env.seatUpdateOk then .ok [Effect.seatUpdate sid 1]
       else .error (⟨.INTERNAL_SERVER_ERROR,
         "Failed to update subscription for the new member."⟩,
         [Effect.seatUpdate sid 1])) := by
    unfold memberRouter.inviteBillingGate
    rw [if_pos (by simp [hcloud])]
    rw [if_neg (by simp [hteam])]
    rw [hteam]
    simp only []
    rw [hsid]
    simp only []
    rw [if_pos (by simp [hunlim])]
  unfold memberRouter.invite
  rw [hws]
  simp only []
  rw [if_neg (by simp [hadm]), if_neg (by simp [hnm]), hgate]
  by_cases hok : env.seatUpdateOk = true
  · rw [if_pos hok]
    simp only []
    constructor
    · by_cases hml : env.magicLinkStatus = true
      · rw [if_neg (by simp [hml])]
        simp
      · rw [if_pos (by simp [Bool.eq_false_iff.mpr hml])]
        simp
    · intro hcontra
      rw [hcontra] at hok
      exact absurd hok (by simp)
  · rw [if_neg hok]
    simp

/-- An active team subscription of `ws1` with a Stripe handle and counted
seats. -/
def teamSub : Subscription :=
  { referenceId := "workspaceaaaa", plan := "team", status := "active",
    stripeSubscriptionId := some "sub12345", unlimitedSeats := false }

/-- `dbBase` in a workspace that holds the team subscription. -/
def dbCloud : DB := { dbBase with subscriptions := [teamSub] }

/-- `dbCloud` with the already soft-deleted member, for removal scenarios. -/
def dbCloudDeleted : DB :=
  { dbCloud with members := [adminMember, deletedBobMember] }

/-- Cloud environment in which the external seat update fails. -/
def envCloudSeatFail : Env :=
  { envSelf with kanEnv := "cloud", seatUpdateOk := false }

/-- C6 witness: the fail-closed behaviour at the concrete cloud fixture. -/
theorem invite_seat_increment_fail_closed_witness :
    (memberRouter.invite envCloudSeatFail dbCloud (some "adminuser")
        "carol@example.com" "workspaceaaaa").trace.head? =
      some (Effect.seatUpdate "sub12345" 1) ∧
    (memberRouter.invite envCloudSeatFail dbCloud (some "adminuser")
        "carol@example.com" "workspaceaaaa").res =
      .error ⟨.INTERNAL_SERVER_ERROR,
        "Failed to update subscription for the new member."⟩ ∧
    (memberRouter.invite envCloudSeatFail dbCloud (some "adminuser")
        "carol@example.com" "workspaceaaaa").db = dbCloud :=
  have h := invite_seat_increment_fail_closed envCloudSeatFail dbCloud
    "adminuser" "carol@example.com" "workspaceaaaa" ws1 [adminMember] teamSub
    "sub12345" (by decide) (by decide) (by decide) (by decide) (by decide)
    (by decide) (by decide)
  ⟨h.1, (h.2 (by decide)).1, (h.2 (by decide)).2⟩

/-- C7: in cloud mode with a counted team subscription, `RemoveMember` whose
external seat decrement fails still returns success — the decrement was
attempted (it is in the trace) but the failure is swallowed, and the member
stays soft-deleted. -/
theorem removeMember_seat_decrement_fail_open (env : Env) (db : DB)
    (uid wpid mpid : String) (w : Workspace) (m : Member) (s : Subscription)
    (sid : String)
    (hcloud : env.kanEnv = "cloud")
    (hws : workspaceRepo.getByPublicId db wpid = some w)
    (hadm : assertUserInWorkspace db uid w.id "admin" = true)
    (hm : memberRepo.getByPublicId db mpid = some m)
    (hnotdel : m.deletedAt = none)
    (hteam : getSubscriptionByPlan
      (subscriptionRepo.getByReferenceId db w.publicId) "team" = some s)
    (hsid : s.stripeSubscriptionId = some sid)
    (hunlim : hasUnlimitedSeats
      (subscriptionRepo.getByReferenceId db w.publicId) = false)
    (hfail : env.seatUpdateOk = false) :
    (memberRouter.memberDelete env db (some uid) wpid mpid).res = .ok ⟨true⟩ ∧
    Effect.seatUpdate sid (-1) ∈
      (memberRouter.memberDelete env db (some uid) wpid mpid).trace ∧
    (∃ x ∈ ((memberRouter.memberDelete env db (some uid) wpid mpid).db).members,
      x.id = m.id ∧ x.publicId = m.publicId ∧ x.deletedAt = some env.now) := by
  have hmem : m ∈ db.members := List.mem_of_find?_eq_some hm
  have hhit : (m.id == m.id && m.deletedAt == none) = true := by
    simp [hnotdel]
  have hfst : ∃ y, (memberRepo.softDelete db m.id env.now uid).1 = some y := by
    unfold memberRepo.softDelete
    simp only []
    cases hh : (db.members.filter
        (fun x => x.id == m.id && x.deletedAt == none)).head? with
    | none =>
      have hnil := List.head?_eq_none_iff.mp hh
      exact absurd hhit (List.filter_eq_nil_iff.mp hnil m hmem)
    | some y => exact ⟨_, rfl⟩
  obtain ⟨y, hy⟩ := hfst
  have hpair := (Prod.mk.eta
    (p := memberRepo.softDelete db m.id env.now uid)).symm
  rw [hy] at hpair
  unfold memberRouter.memberDelete
  rw [hws]
  simp only []
  rw [if_neg (by simp [hadm]), hm]
  simp only []
  rw [hpair]
  simp only []
  rw [if_pos (by simp [hcloud]), hteam]
  simp only []
  rw [hsid]
  simp only []
  rw [if_pos (by simp [hunlim])]
  refine ⟨rfl, by simp, ?_⟩
  refine ⟨{ m with deletedAt := some env.now, deletedBy := some uid }, ?_, rfl,
    rfl, rfl⟩
  apply List.mem_map.mpr
  exact ⟨m, hmem, by rw [if_pos hhit]⟩

/-- A non-deleted bob membership of `ws1`, used for removal scenarios. -/
def bobMember : Member :=
  { id := 3, publicId := "memberbobccc", workspaceId := 1,
    email := "bob@example.com", userId := some "bobuseruuid",
    createdBy := "adminuser", role := "member", status := "active",
    deletedAt := none, deletedBy := none }

/-- `dbCloud` with bob as a removable member. -/
def dbCloudActive : DB := { dbCloud with members := [adminMember, bobMember] }

/-- C7 witness: the fail-open behaviour at the concrete cloud fixture. -/
theorem removeMember_seat_decrement_fail_open_witness :
    (memberRouter.memberDelete envCloudSeatFail dbCloudActive (some "adminuser")
        "workspaceaaaa" "memberbobccc").res = .ok ⟨true⟩ ∧
    Effect.seatUpdate "sub12345" (-1) ∈
      (memberRouter.memberDelete envCloudSeatFail dbCloudActive (some "adminuser")
        "workspaceaaaa" "memberbobccc").trace ∧
    (∃ x ∈ ((memberRouter.memberDelete envCloudSeatFail dbCloudActive
          (some "adminuser") "workspaceaaaa" "memberbobccc").db).members,
      x.id = bobMember.id ∧ x.publicId = bobMember.publicId ∧
        x.deletedAt = some envCloudSeatFail.now) :=
  removeMember_seat_decrement_fail_open envCloudSeatFail dbCloudActive
    "adminuser" "workspaceaaaa" "memberbobccc" ws1 bobMember teamSub "sub12345"
    (by decide) (by decide) (by decide) (by decide) (by decide) (by decide)
    (by decide) (by decide) (by decide)

/-- C8: when the magic-link dispatch fails after the invited Member row was
created, `InviteByEmail` compensates by soft-deleting that row and fails
`INTERNAL_SERVER_ERROR`: afterwards every non-deleted member row already
existed before the call, and the just-created `invited` row is soft-deleted. -/
theorem invite_dispatch_fail_compensates (env : Env) (db : DB)
    (uid email wpid : String) (w : Workspace) (mems : List Member)
    (tr : List Effect)
    (hwf : db.wfb = true)
    (hws : workspaceRepo.getByPublicIdWithMembers db wpid = some (w, mems))
    (hadm : assertUserInWorkspace db uid w.id "admin" = true)
    (hnm : mems.any (fun m => m.email == email) = false)
    (hgate : memberRouter.inviteBillingGate env db w = .ok tr)
    (hml : env.magicLinkStatus = false) :
    (memberRouter.invite env db (some uid) email wpid).res =
      .error ⟨.INTERNAL_SERVER_ERROR,
        "Failed to send magic link invitation to user with email " ++
          email ++ "."⟩ ∧
    (∀ x ∈ ((memberRouter.invite env db (some uid) email wpid).db).members,
      x.deletedAt = none → x ∈ db.members) ∧
    (∃ x ∈ ((memberRouter.invite env db (some uid) email wpid).db).members,
      x.status = "invited" ∧ x.deletedAt = some env.now) := by
  have hlt : ∀ a ∈ db.members, a.id < db.nextMemberId := by
    intro a ha
    have h1 := (Bool.and_eq_true_iff.mp hwf).1
    exact of_decide_eq_true (List.all_eq_true.mp h1 a ha)
  unfold memberRouter.invite
  rw [hws]
  simp only []
  rw [if_neg (by simp [hadm]), if_neg (by simp [hnm]), hgate]
  simp only []
  rw [if_pos (by simp [hml])]
  simp only [memberRepo.create, memberRepo.softDelete]
  refine ⟨by trivial, ?_, ?_⟩
  · intro x hx hxdel
    rcases List.mem_map.mp hx with ⟨a, ha, hax⟩
    rcases List.mem_append.mp ha with ha' | ha'
    · have hne : (a.id == db.nextMemberId) = false := by
        have := Nat.ne_of_lt (hlt a ha')
        simp [this]
      rw [if_neg (by simp [hne])] at hax
      cases hax
      exact ha'
    · rw [List.mem_singleton] at ha'
      subst ha'
      rw [if_pos (by simp)] at hax
      cases hax
      exact absurd hxdel (by simp)
  · exact ⟨{ id := db.nextMemberId, publicId := env.newPublicId,
              workspaceId := w.id, email := email,
              userId := Option.map (fun u => u.id) (userRepo.getByEmail db email),
              createdBy := uid, role := "member", status := "invited",
              deletedAt := some env.now, deletedBy := some uid },
      List.mem_map.mpr ⟨{ id := db.nextMemberId, publicId := env.newPublicId,
                          workspaceId := w.id, email := email,
                          userId := Option.map (fun u => u.id)
                            (userRepo.getByEmail db email),
                          createdBy := uid, role := "member",
                          status := "invited", deletedAt := none,
                          deletedBy := none },
        List.mem_append_right _ (List.mem_singleton.mpr rfl),
        by rw [if_pos (by simp)]⟩, rfl, rfl⟩

/-- Self-hosted environment whose magic-link dispatch fails. -/
def envMagicFail : Env := { envSelf with magicLinkStatus := false }

/-- C8 witness: the compensation at the concrete fixture — dispatch fails,
the invite errors, and no new non-deleted row remains. -/
theorem invite_dispatch_fail_compensates_witness :
    (memberRouter.invite envMagicFail dbBase (some "adminuser")
        "carol@example.com" "workspaceaaaa").res =
      .error ⟨.INTERNAL_SERVER_ERROR,
        "Failed to send magic link invitation to user with email carol@example.com."⟩ ∧
    (∀ x ∈ ((memberRouter.invite envMagicFail dbBase (some "adminuser")
        "carol@example.com" "workspaceaaaa").db).members,
      x.deletedAt = none → x ∈ dbBase.members) ∧
    (∃ x ∈ ((memberRouter.invite envMagicFail dbBase (some "adminuser")
        "carol@example.com" "workspaceaaaa").db).members,
      x.status = "invited" ∧ x.deletedAt = some envMagicFail.now) :=
  invite_dispatch_fail_compensates envMagicFail dbBase "adminuser"
    "carol@example.com" "workspaceaaaa" ws1 [adminMember] [] (by decide)
    (by decide) (by decide) (by decide) (by decide) (by decide)

/-- C9: `GenerateInviteLink` rejects an `expiresIn` outside [1,30] before
any store write (store and trace untouched); an absent `expiresIn` defaults
to 7 and an absent role to "member"; and an accepted value N persists a link
expiring exactly N days from now, returning the redemption URL built from
the generated code together with the code and that expiration. -/
theorem generateInviteLink_validation_and_persist :
    (∀ (env : Env) (db : DB) (ctx : Option String) (wpid : String)
        (r : Option String) (n : Int), (n < 1 ∨ 30 < n) →
      (∃ e, (memberRouter.generateInviteLink env db ctx ⟨wpid, r, some n⟩).res =
        .error e) ∧
      (memberRouter.generateInviteLink env db ctx ⟨wpid, r, some n⟩).db = db ∧
      (memberRouter.generateInviteLink env db ctx ⟨wpid, r, some n⟩).trace = []) ∧
    (∀ wpid : String, 12 ≤ wpid.length →
      memberRouter.zodParseGenerate ⟨wpid, none, none⟩ =
        .ok (wpid, "member", 7)) ∧
    (∀ (env : Env) (db : DB) (uid : String)
        (input : memberRouter.GenerateInput) (wpid role : String) (n : Nat)
        (w : Workspace) (mems : List Member),
      memberRouter.zodParseGenerate input = .ok (wpid, role, n) →
      workspaceRepo.getByPublicIdWithMembers db wpid = some (w, mems) →
      assertUserInWorkspace db uid w.id "admin" = true →
      (env.kanEnv == "cloud" &&
        (getSubscriptionByPlan
          (subscriptionRepo.getByReferenceId db w.publicId) "team").isNone &&
        (getSubscriptionByPlan
          (subscriptionRepo.getByReferenceId db w.publicId) "pro").isNone) =
          false →
      (memberRouter.generateInviteLink env db (some uid) input).res =
        .ok ⟨(env.baseUrl.getD "http://localhost:3000") ++ "/invite/" ++
          env.newInviteCode, env.newInviteCode, env.now + n * dayMs⟩ ∧
      ∃ l, ((memberRouter.generateInviteLink env db (some uid)
          input).db).inviteLinks.getLast? = some l ∧
        l.inviteCode = env.newInviteCode ∧ l.expiresAt = env.now + n * dayMs ∧
        l.role = role ∧ l.workspaceId = w.id ∧ l.isUsed = false) := by
  refine ⟨?_, ?_, ?_⟩
  · intro env db ctx wpid r n hn
    have hperr : ∃ e, memberRouter.zodParseGenerate ⟨wpid, r, some n⟩ =
        .error e := by
      unfold memberRouter.zodParseGenerate
      by_cases hlen : wpid.length < 12
      · rw [if_pos hlen]
        exact ⟨_, rfl⟩
      · rw [if_neg hlen]
        cases hr : (match r with
          | none => some "member"
          | some rr => if rr == "member" || rr == "admin" then some rr
                       else none) with
        | none => exact ⟨_, rfl⟩
        | some role =>
          simp only []
          rw [if_neg (by rintro ⟨h1, h2⟩; rcases hn with h | h <;> omega)]
          exact ⟨_, rfl⟩
    obtain ⟨e, he⟩ := hperr
    unfold memberRouter.generateInviteLink
    rw [he]
    exact ⟨⟨e, rfl⟩, rfl, rfl⟩
  · intro wpid hlen
    unfold memberRouter.zodParseGenerate
    rw [if_neg (Nat.not_lt.mpr hlen)]
  · intro env db uid input wpid role n w mems hparse hws hadm hbill
    unfold memberRouter.generateInviteLink
    rw [hparse]
    simp only []
    rw [hws]
    simp only []
    rw [if_neg (by simp [hadm]), if_neg (by simp [hbill])]
    exact ⟨rfl, _, List.getLast?_concat _, rfl, rfl, rfl, rfl, rfl⟩

/-- C9 witness: `expiresIn = 31` is rejected with the store untouched; the
defaults produce role "member" and 7 days; and a defaulted request persists
a link expiring 7 days from now with the redemption URL. -/
theorem generateInviteLink_validation_witness :
    (memberRouter.generateInviteLink envSelf dbBase (some "adminuser")
        ⟨"workspaceaaaa", some "member", some 31⟩).db = dbBase ∧
    memberRouter.zodParseGenerate ⟨"workspaceaaaa", none, none⟩ =
      .ok ("workspaceaaaa", "member", 7) ∧
    (memberRouter.generateInviteLink envSelf dbBase (some "adminuser")
        ⟨"workspaceaaaa", none, none⟩).res =
      .ok ⟨"https://kan.example/invite/newcodeneww1", "newcodeneww1",
        1000 + 7 * dayMs⟩ :=
  ⟨(generateInviteLink_validation_and_persist.1 envSelf dbBase
      (some "adminuser") "workspaceaaaa" (some "member") 31 (by decide)).2.1,
   generateInviteLink_validation_and_persist.2.1 "workspaceaaaa" (by decide),
   (generateInviteLink_validation_and_persist.2.2 envSelf dbBase "adminuser"
      ⟨"workspaceaaaa", none, none⟩ "workspaceaaaa" "member" 7 ws1
      [adminMember] (by decide) (by decide) (by decide) (by decide)).1⟩

/-- Whether an effect is a billing seat update. -/
def isSeatUpdateEffect : Effect → Bool
  | .seatUpdate _ _ => true
  | _ => false

/-- C10: in cloud mode with a counted team subscription, when the seat
increment succeeds but the magic-link dispatch then fails, the invite
compensates (soft-deletes the row, fails `INTERNAL_SERVER_ERROR`) but issues
no compensating decrement: the only billing effect of the call is the single
`+1` seat update, while no new non-deleted member row remains. -/
theorem invite_dispatch_fail_no_seat_rollback (env : Env) (db : DB)
    (uid email wpid : String) (w : Workspace) (mems : List Member)
    (s : Subscription) (sid : String)
    (hwf : db.wfb = true)
    (hcloud : env.kanEnv = "cloud")
    (hws : workspaceRepo.getByPublicIdWithMembers db wpid = some (w, mems))
    (hadm : assertUserInWorkspace db uid w.id "admin" = true)
    (hnm : mems.any (fun m => m.email == email) = false)
    (hteam : getSubscriptionByPlan
      (subscriptionRepo.getByReferenceId db w.publicId) "team" = some s)
    (hsid : s.stripeSubscriptionId = some sid)
    (hunlim : hasUnlimitedSeats
      (subscriptionRepo.getByReferenceId db w.publicId) = false)
    (hok : env.seatUpdateOk = true)
    (hml : env.magicLinkStatus = false) :
    (memberRouter.invite env db (some uid) email wpid).res =
      .error ⟨.INTERNAL_SERVER_ERROR,
        "Failed to send magic link invitation to user with email " ++
          email ++ "."⟩ ∧
    ((memberRouter.invite env db (some uid) email wpid).trace.filter
      isSeatUpdateEffect) = [Effect.seatUpdate sid 1] ∧
    (∀ x ∈ ((memberRouter.invite env db (some uid) email wpid).db).members,
      x.deletedAt = none → x ∈ db.members) := by
  have hlt : ∀ a ∈ db.members, a.id < db.nextMemberId := by
    intro a ha
    have h1 := (Bool.and_eq_true_iff.mp hwf).1
    exact of_decide_eq_true (List.all_eq_true.mp h1 a ha)
  have hgate : memberRouter.inviteBillingGate env db w =
      .ok [Effect.seatUpdate sid 1] := by
    unfold memberRouter.inviteBillingGate
    rw [if_pos (by simp [hcloud])]
    rw [if_neg (by simp [hteam])]
    rw [hteam]
    simp only []
    rw [hsid]
    simp only []
    rw [if_pos (by simp [hunlim]), if_pos hok]
  unfold memberRouter.invite
  rw [hws]
  simp only []
  rw [if_neg (by simp [hadm]), if_neg (by simp [hnm]), hgate]
  simp only []
  rw [if_pos (by simp [hml])]
  simp only [memberRepo.create, memberRepo.softDelete]
  refine ⟨by trivial, by simp [isSeatUpdateEffect], ?_⟩
  intro x hx hxdel
  rcases List.mem_map.mp hx with ⟨a, ha, hax⟩
  rcases List.mem_append.mp ha with ha' | ha'
  · have hne : (a.id == db.nextMemberId) = false := by
      have := Nat.ne_of_lt (hlt a ha')
      simp [this]
    rw [if_neg (by simp [hne])] at hax
    cases hax
    exact ha'
  · rw [List.mem_singleton] at ha'
    subst ha'
    rw [if_pos (by simp)] at hax
    cases hax
    exact absurd hxdel (by simp)

/-- Cloud environment in which the seat update succeeds but the magic-link
dispatch fails. -/
def envCloudMagicFail : Env :=
  { envSelf with kanEnv := "cloud", magicLinkStatus := false }

/-- C10 witness: the missing rollback at the concrete cloud fixture. -/
theorem invite_dispatch_fail_no_seat_rollback_witness :
    (memberRouter.invite envCloudMagicFail dbCloud (some "adminuser")
        "carol@example.com" "workspaceaaaa").res =
      .error ⟨.INTERNAL_SERVER_ERROR,
        "Failed to send magic link invitation to user with email carol@example.com."⟩ ∧
    ((memberRouter.invite envCloudMagicFail dbCloud (some "adminuser")
        "carol@example.com" "workspaceaaaa").trace.filter isSeatUpdateEffect) =
      [Effect.seatUpdate "sub12345" 1] ∧
    (∀ x ∈ ((memberRouter.invite envCloudMagicFail dbCloud (some "adminuser")
        "carol@example.com" "workspaceaaaa").db).members,
      x.deletedAt = none → x ∈ dbCloud.members) :=
  invite_dispatch_fail_no_seat_rollback envCloudMagicFail dbCloud "adminuser"
    "carol@example.com" "workspaceaaaa" ws1 [adminMember] teamSub "sub12345"
    (by decide) (by decide) (by decide) (by decide) (by decide) (by decide)
    (by decide) (by decide) (by decide) (by decide)

end Kan
